import Mathlib

/-!
Shallow embedding of `src/mod.ts` (Oak file-upload middleware, class `FileUploader`).

Modelling conventions:
* JS strings are Lean `String`; byte buffers are `List Nat`.
* `crypto.randomUUID()` is modelled by an explicit supply of identifier strings
  (`Ctx.uuids`), consumed in source order; `new Date()` is a fixed `DateTime`
  in the environment (one request is fast enough that per-file clock drift is
  not what any claim is about).
* `Deno.cwd()` and JS `encodeURI` are environment parameters (`Env.cwd`,
  `Env.encodeURI`); `encodeURI` is kept abstract, the code only pipes a string
  through it.
* Filesystem writes and `file.arrayBuffer()` reads are recorded as an event
  trace (`Event`) instead of performing I/O.
* `@std/path.join` is modelled as joining with "/" (`pjoin`, `joinSegs`);
  the sources only ever join well-formed relative segments.
* The `content-length` header is modelled as `Option Nat` (header absent /
  parsed number); `parseInt` edge cases (non-numeric strings) are outside
  every claim.
* The `onError` callback is not executed in the model; the middleware outcome
  records the error message routed to it (`MwOutcome.onErrorMsg`).
-/

set_option maxHeartbeats 1000000

namespace OakUpload

/-- `Required<UploadOptions>` from `src/mod.ts` (the merge of caller options
with `defaultOptions`). The `onError` member is handled at outcome level. -/
structure UploadOptions where
  extensions : List String
  maxSizeBytes : Nat
  maxFileSizeBytes : Nat
  saveFile : Bool
  readFile : Bool
  useCurrentDir : Bool
  useDateTimeSubDir : Bool
deriving Repr, DecidableEq

/-- `defaultOptions` of class `FileUploader`; `Number.MAX_SAFE_INTEGER` is
2^53 - 1. -/
def defaultOptions : UploadOptions :=
  { extensions := []
    maxSizeBytes := 2 ^ 53 - 1
    maxFileSizeBytes := 2 ^ 53 - 1
    saveFile := true
    readFile := false
    useCurrentDir := true
    useDateTimeSubDir := true }

/-- A decoded multipart `File` object: name, declared size, MIME type and the
bytes `arrayBuffer()` would yield. -/
structure FFile where
  name : String
  size : Nat
  type : String
  contents : List Nat
deriving Repr, DecidableEq

/-- `ProcessedFile` from `src/mod.ts`. -/
structure ProcessedFile where
  filename : String
  size : Nat
  type : String
  contents : Option (List Nat)
  uri : String
  url : String
deriving Repr, DecidableEq

/-- The initial value of the local `processedFile` in `processFiles`. -/
def initProcessedFile : ProcessedFile :=
  { filename := "", contents := none, size := 0, type := "", uri := "", url := "" }

/-- Side effects of file processing: `file.arrayBuffer()` reads,
`Deno.writeFile` to a permanent (`saveFileToDisk`) or temporary path. -/
inductive Event where
  | read (filename : String)
  | writePermanent (path : String)
  | writeTemp (path : String)
deriving Repr, DecidableEq

/-- Wall-clock components of `new Date()` used by `saveFileToDisk`
(`month` is already the human 1-12 value, i.e. `getMonth() + 1`). -/
structure DateTime where
  year : Nat
  month : Nat
  day : Nat
  hour : Nat
  minute : Nat
  second : Nat
deriving Repr, DecidableEq

/-- Request-independent environment of one `FileUploader` instance:
the resolved options, the constructor `path`, `Deno.cwd()`, the clock,
and the JS `encodeURI` primitive. -/
structure Env where
  opts : UploadOptions
  path : String
  cwd : String
  now : DateTime
  encodeURI : String → String

/-- Mutable context threaded through file processing: the instance field
`this.validationErrors`, the remaining uuid supply and the I/O event trace. -/
structure Ctx where
  validationErrors : List String
  uuids : List String
  events : List Event
deriving Repr, DecidableEq

/-- `n.toString().padStart(2, "0")` for a natural number. -/
def pad2 (n : Nat) : String :=
  if n < 10 then "0" ++ toString n else toString n

/-- `@std/path.join` of two segments. -/
def pjoin (a b : String) : String := a ++ "/" ++ b

/-- Variadic `@std/path.join` of a segment list. -/
def joinSegs : List String → String
  | [] => ""
  | [s] => s
  | s :: rest => s ++ "/" ++ joinSegs rest

/-- JS `String.prototype.split` with a one-character separator. -/
def splitOnChar (sep : Char) : List Char → List (List Char)
  | [] => [[]]
  | c :: cs =>
    match splitOnChar sep cs with
    | [] => [[]]
    | h :: t => if c = sep then [] :: h :: t else (c :: h) :: t

/-- `filename.split(".").pop() ?? ""` from `processFiles` (line 215):
the last piece of the dot-split of the filename. -/
def extOf (s : String) : String :=
  String.mk ((splitOnChar '.' s.data).getLastD [])

/-- The extension guard of `processFiles` (line 221), verbatim:
`!extension && !this.options.extensions.includes(extension)`. -/
def extRejected (opts : UploadOptions) (extension : String) : Bool :=
  (extension == "") && !(opts.extensions.contains extension)

/-- The extension validation message pushed at line 222 (source spelling of
"extentions" preserved; `join()` defaults to the "," separator). -/
def extMsg (opts : UploadOptions) (extension filename : String) : String :=
  "File extension " ++ extension ++ " in " ++ filename ++
    " is not allowed. Allowed extentions: " ++
    String.intercalate "," opts.extensions ++ "."

/-- The size validation message pushed at line 230 (trailing blank preserved). -/
def sizeMsg (opts : UploadOptions) (f : FFile) : String :=
  "File size exceeds limit. File: " ++ f.name ++ ", Size: " ++ toString f.size ++
    " bytes, Limit: " ++ toString opts.maxFileSizeBytes ++ " bytes. "

/-- JS `s.replace(pat, "")` with a plain-string pattern: remove the first
occurrence of `pat`, leave `s` unchanged when `pat` does not occur. -/
def replaceFirst : List Char → List Char → List Char
  | [], _ => []
  | c :: cs, pat =>
    if pat.isPrefixOf (c :: cs) then (c :: cs).drop pat.length
    else c :: replaceFirst cs pat

/-- String-level wrapper of `replaceFirst`. -/
def replaceFirstStr (s pat : String) : String :=
  String.mk (replaceFirst s.data pat.data)

/-- JS `s.replace(/\\/g, "/")`. -/
def backslashToSlash (s : String) : String :=
  String.mk (s.data.map (fun c => if c = '\\' then '/' else c))

/-- JS `s.startsWith("/")`. -/
def startsWithSlash (s : String) : Bool :=
  match s.data with
  | [] => false
  | c :: _ => c = '/'

/-- The temporary path built in the `else` branch of `processFiles`
(lines 254-258): `join(cwd, "temp_uploads", uuid ++ "_" ++ name)`. -/
def tempPath (cwd uuid name : String) : String :=
  pjoin (pjoin cwd "temp_uploads") (uuid ++ "_" ++ name)

/-- `saveFileToDisk` (lines 269-300): derive the storage path (optionally a
date/time/uuid chain under `this.path`, optionally resolved under the cwd),
record the `arrayBuffer` read and the `Deno.writeFile`, and return the path.
Consumes one uuid exactly when `useDateTimeSubDir` is set. -/
def saveFileToDisk (env : Env) (file : FFile) (c : Ctx) : String × Ctx :=
  let step1 : String × Ctx :=
    if env.opts.useDateTimeSubDir then
      let u := c.uuids.headD ""
      (pjoin env.path (joinSegs
          [toString env.now.year, pad2 env.now.month, pad2 env.now.day,
           pad2 env.now.hour, pad2 env.now.minute, pad2 env.now.second, u]),
       { c with uuids := c.uuids.tail })
    else (env.path, c)
  let fullPath : String :=
    if env.opts.useCurrentDir then pjoin env.cwd step1.1 else step1.1
  let filePath : String := pjoin fullPath file.name
  (filePath,
   { step1.2 with
      events := step1.2.events ++ [Event.read file.name, Event.writePermanent filePath] })

/-- One iteration of the `for (const file of files)` loop of `processFiles`
(lines 213-265), updating the shared `processedFile` and the context. -/
def processOneFile (env : Env) (f : FFile) (pf : ProcessedFile) (c : Ctx) :
    ProcessedFile × Ctx :=
  let filename := f.name
  let extension := extOf filename
  let pf := { pf with filename := filename, type := f.type, size := f.size }
  if extRejected env.opts extension then
    (pf, { c with validationErrors := c.validationErrors ++ [extMsg env.opts extension filename] })
  else if f.size > env.opts.maxFileSizeBytes then
    (pf, { c with validationErrors := c.validationErrors ++ [sizeMsg env.opts f] })
  else
    let rd : ProcessedFile × Ctx :=
      if env.opts.readFile then
        ({ pf with contents := some f.contents },
         { c with events := c.events ++ [Event.read filename] })
      else (pf, c)
    if env.opts.saveFile then
      let sv := saveFileToDisk env f rd.2
      let url0 := backslashToSlash (replaceFirstStr sv.1 env.cwd)
      let url1 := if startsWithSlash url0 then url0 else "/" ++ url0
      ({ rd.1 with uri := sv.1, url := env.encodeURI url1 }, sv.2)
    else
      let u := rd.2.uuids.headD ""
      let tfp := tempPath env.cwd u f.name
      ({ rd.1 with uri := tfp, url := "" },
       { rd.2 with
          uuids := rd.2.uuids.tail,
          events := rd.2.events ++ [Event.read filename, Event.writeTemp tfp] })

/-- The loop of `processFiles` as a fold from a given `processedFile` value. -/
def processFilesFrom (env : Env) (pf : ProcessedFile) (c : Ctx) :
    List FFile → ProcessedFile × Ctx
  | [] => (pf, c)
  | f :: fs =>
    let r := processOneFile env f pf c
    processFilesFrom env r.1 r.2 fs

/-- `processFiles` (lines 201-267): fold the loop body over the file list,
starting from the all-empty `processedFile`. -/
def processFiles (env : Env) (files : List FFile) (c : Ctx) : ProcessedFile × Ctx :=
  processFilesFrom env initProcessedFile c files

/-- The suffix of `s` after the first occurrence of `pat`, or `none` when
`pat` does not occur: the capture of the first regex match of
`/pat(.*)$/`. -/
def afterFirst : List Char → List Char → Option (List Char)
  | [], pat => if pat.isPrefixOf ([] : List Char) then some [] else none
  | c :: cs, pat =>
    if pat.isPrefixOf (c :: cs) then some ((c :: cs).drop pat.length)
    else afterFirst cs pat

/-- The boundary extraction of `handler` (lines 158-161):
`contentType.match(/boundary=(.*)$/)` returning the captured group. -/
def boundaryOf (contentType : String) : Option String :=
  (afterFirst contentType.data "boundary=".data).map String.mk

/-- A value of one decoded form-data entry: a `File`, a plain string field, or
an array of such values (the `Array.isArray` branch of `handler`). -/
inductive FormDataValue where
  | file (f : FFile)
  | str (s : String)
  | arr (vs : List (FFile ⊕ String))
deriving Repr, DecidableEq

/-- The inputs of one incoming request that the middleware inspects:
`request.hasBody`, the two headers, and the decoded
`await request.body.formData()` entries in iteration order. -/
structure Request where
  hasBody : Bool
  contentLength : Option Nat
  contentType : Option String
  formData : List (String × FormDataValue)
deriving Repr, DecidableEq

/-- The long-lived instance fields of class `FileUploader` that the middleware
mutates: `this.validationErrors` (line 114) and `this.result.data`
(line 115, a string-keyed record modelled as an insertion-ordered
association list). -/
structure UploaderState where
  validationErrors : List String
  resultData : List (String × ProcessedFile)
deriving Repr, DecidableEq

/-- The fresh state a newly constructed `FileUploader` starts with. -/
def freshState : UploaderState :=
  { validationErrors := [], resultData := [] }

/-- JS object property assignment `record[key] = value`: overwrite in place
when the key exists, append otherwise. -/
def upsert (m : List (String × ProcessedFile)) (k : String) (v : ProcessedFile) :
    List (String × ProcessedFile) :=
  if m.any (fun p => p.1 == k) then
    m.map (fun p => if p.1 == k then (k, v) else p)
  else m ++ [(k, v)]

/-- The message of the total-size error thrown at lines 153-155. -/
def totalMsg (contentLength maxSizeBytes : Nat) : String :=
  "Total upload size exceeded. Uploaded: " ++ toString contentLength ++
    ". Allowed maximum: " ++ toString maxSizeBytes

/-- The message of the missing-boundary error thrown at lines 164-166. -/
def invalidFormMsg : String :=
  "Invalid form data. The request body should be encoded as 'multipart/form-data'."

/-- The precondition ladder of `handler` (lines 146-167), in source order:
missing body, falsy content-length, falsy content-type, total size over
`maxSizeBytes`, then falsy boundary. Returns the message of the first error
thrown, or `none` when every check passes. -/
def preconditionError (opts : UploadOptions) (req : Request) : Option String :=
  if !req.hasBody then some "Request is missing a body"
  else
    match req.contentLength with
    | none => some "Content length is 0"
    | some len =>
      match req.contentType with
      | none => some "Content type is missing"
      | some ct =>
        if ct == "" then some "Content type is missing"
        else if len > opts.maxSizeBytes then some (totalMsg len opts.maxSizeBytes)
        else
          match boundaryOf ct with
          | none => some invalidFormMsg
          | some b => if b == "" then some invalidFormMsg else none

/-- One iteration of the `for (const [key, value] of entries)` loop
(lines 172-181): a `File` value is processed as a singleton list, an array
value is filtered to its `File` elements and processed when non-empty,
anything else is skipped. -/
def processEntry (env : Env) (acc : List (String × ProcessedFile) × Ctx)
    (entry : String × FormDataValue) : List (String × ProcessedFile) × Ctx :=
  match entry.2 with
  | FormDataValue.file f =>
    let r := processFiles env [f] acc.2
    (upsert acc.1 entry.1 r.1, r.2)
  | FormDataValue.str _ => acc
  | FormDataValue.arr vs =>
    let files := vs.filterMap (fun v => match v with
      | Sum.inl f => some f
      | Sum.inr _ => none)
    if files.isEmpty then acc
    else
      let r := processFiles env files acc.2
      (upsert acc.1 entry.1 r.1, r.2)

/-- The whole form-data loop of `handler`, threading the instance result
record and the mutable context through every entry. -/
def runForm (env : Env) (st : UploaderState) (entries : List (String × FormDataValue))
    (uuids : List String) : List (String × ProcessedFile) × Ctx :=
  entries.foldl (processEntry env)
    (st.resultData, { validationErrors := st.validationErrors, uuids := uuids, events := [] })

/-- Observable outcome of one middleware invocation: the instance state after
the request, the value assigned to `ctx.state.uploadedFiles` (if any), the
error routed to `onError` (if any), how many times `next` was awaited, and
the I/O event trace. -/
structure MwOutcome where
  state : UploaderState
  uploadedFiles : Option (List (String × ProcessedFile))
  onErrorMsg : Option String
  nextCalls : Nat
  events : List Event
deriving Repr, DecidableEq

/-- The middleware closure returned by `handler()` (lines 143-196), run on one
request against the current instance state. Any throw inside the `try` block
lands in the `catch`, whose `onError` call is recorded in `onErrorMsg`; the
`await next()` after the `try`/`catch` (line 195) always runs, the one inside
the `try` (line 190) only on full success. -/
def middleware (env : Env) (st : UploaderState) (req : Request)
    (uuids : List String) : MwOutcome :=
  match preconditionError env.opts req with
  | some e =>
    { state := st, uploadedFiles := none, onErrorMsg := some e,
      nextCalls := 1, events := [] }
  | none =>
    let r := runForm env st req.formData uuids
    let st' : UploaderState :=
      { validationErrors := r.2.validationErrors, resultData := r.1 }
    if r.2.validationErrors.isEmpty then
      { state := st', uploadedFiles := some r.1, onErrorMsg := none,
        nextCalls := 2, events := r.2.events }
    else
      { state := st', uploadedFiles := none,
        onErrorMsg := some ("Unprocessable Entity: " ++
          String.intercalate " " r.2.validationErrors),
        nextCalls := 1, events := r.2.events }

/-! Specification-side descriptions, used to compare the code's behaviour with
the spec's wording, plus auxiliary decidable predicates. -/

/-- Does `pat` occur as a contiguous substring of the list? -/
def occurs (pat : List Char) : List Char → Bool
  | [] => pat.isPrefixOf ([] : List Char)
  | c :: cs => pat.isPrefixOf (c :: cs) || occurs pat cs

/-- Specification-side description of "the current working directory prefix
removed": drop `pre` when it is a prefix of `s`, leave `s` unchanged
otherwise. -/
def stripCwd (s pre : String) : String :=
  if pre.data.isPrefixOf s.data then String.mk (s.data.drop pre.data.length) else s

/-- Specification-side description of "a leading '/' guaranteed". -/
def ensureLeadingSlash (s : String) : String :=
  if startsWithSlash s then s else "/" ++ s

/-- Specification-side description of the documented storage layout
`{basePath}/{YYYY}/{MM}/{DD}/{HH}/{mm}/{ss}/{uuid}/{originalFilename}`. -/
def dateTimeRel (env : Env) (uuid name : String) : String :=
  env.path ++ "/" ++ toString env.now.year ++ "/" ++ pad2 env.now.month ++ "/" ++
    pad2 env.now.day ++ "/" ++ pad2 env.now.hour ++ "/" ++ pad2 env.now.minute ++ "/" ++
    pad2 env.now.second ++ "/" ++ uuid ++ "/" ++ name

/-- The documented layout resolved under the cwd when `useCurrentDir` is
set, as given otherwise. -/
def dateTimePath (env : Env) (uuid name : String) : String :=
  if env.opts.useCurrentDir then env.cwd ++ "/" ++ dateTimeRel env uuid name
  else dateTimeRel env uuid name

/-- Holds when the string contains no backslash (no Windows path separator). -/
def noBackslash (s : String) : Bool :=
  s.data.all (fun c => c != '\\')

/-! Concrete fixtures used by counterexamples and witnesses. -/

/-- Uploader configured with `extensions = ["jpg"]` and a 1000-byte file
limit, as in the spec's test scenarios. -/
def jpgEnv : Env :=
  { opts := { defaultOptions with extensions := ["jpg"], maxFileSizeBytes := 1000 },
    path := "uploads", cwd := "/cwd",
    now := { year := 2026, month := 1, day := 2, hour := 3, minute := 4, second := 5 },
    encodeURI := id }

/-- Same uploader with an empty extensions list (no restriction configured). -/
def noRestrictEnv : Env :=
  { jpgEnv with opts := { jpgEnv.opts with extensions := [] } }

/-- Same uploader with `saveFile := false` (temporary storage mode). -/
def tmpModeEnv : Env :=
  { jpgEnv with opts := { jpgEnv.opts with saveFile := false } }

/-- A context with two unique ids available and nothing recorded yet. -/
def ctx2 : Ctx :=
  { validationErrors := [], uuids := ["u1", "u2"], events := [] }

/-- A well-formed 500-byte jpg file. -/
def aJpg : FFile :=
  { name := "a.jpg", size := 500, type := "image/jpeg", contents := [1, 2] }

/-- A 500-byte png file (extension outside the `["jpg"]` allow-list). -/
def aPng : FFile :=
  { name := "a.png", size := 500, type := "image/png", contents := [3] }

/-- An oversized jpg file (5000 bytes against a 1000-byte limit). -/
def bigJpg : FFile :=
  { name := "b.jpg", size := 5000, type := "image/jpeg", contents := [4] }

/-- A file whose name has no dot at all. -/
def noExtFile : FFile :=
  { name := "noext", size := 10, type := "text/plain", contents := [5] }

/-- An oversized file whose name ends with a dot (empty extracted extension). -/
def dotFile : FFile :=
  { name := "a.", size := 5000, type := "text/plain", contents := [6] }

/-- A multipart content type with a boundary parameter. -/
def mpCT : String := "multipart/form-data; boundary=X"

/-- A request uploading `a.png` under field `photo`. -/
def pngReq : Request :=
  { hasBody := true, contentLength := some 500, contentType := some mpCT,
    formData := [("photo", FormDataValue.file aPng)] }

/-- A request uploading the oversized `b.jpg` under field `f`. -/
def bigReq : Request :=
  { hasBody := true, contentLength := some 5000, contentType := some mpCT,
    formData := [("f", FormDataValue.file bigJpg)] }

/-- A fully valid request uploading `a.jpg` under field `g`. -/
def okReq : Request :=
  { hasBody := true, contentLength := some 500, contentType := some mpCT,
    formData := [("g", FormDataValue.file aJpg)] }

/-- A request with no content-length header. -/
def noLenReq : Request :=
  { hasBody := true, contentLength := none, contentType := some mpCT,
    formData := [("g", FormDataValue.file aJpg)] }

/-! Helper lemmas about the string primitives. -/

theorem splitOnChar_of_not_mem (sep : Char) (l : List Char) (h : sep ∉ l) :
    splitOnChar sep l = [l] := by
  induction l with
  | nil => rfl
  | cons c cs ih =>
    have hc : ¬ c = sep := by
      intro he
      exact h (he ▸ List.mem_cons_self c cs)
    have hcs : sep ∉ cs := fun hm => h (List.mem_cons_of_mem _ hm)
    simp [splitOnChar, ih hcs, hc]

theorem extOf_of_no_dot (s : String) (h : '.' ∉ s.data) : extOf s = s := by
  simp [extOf, splitOnChar_of_not_mem '.' s.data h, List.getLastD]

theorem replaceFirst_append_self (p s : List Char) : replaceFirst (p ++ s) p = s := by
  cases p with
  | nil =>
    cases s with
    | nil => rfl
    | cons c cs => simp [replaceFirst]
  | cons a as =>
    show replaceFirst (a :: (as ++ s)) (a :: as) = s
    rw [replaceFirst, if_pos]
    · show (a :: (as ++ s)).drop (a :: as).length = s
      simp [List.drop_left]
    · exact List.isPrefixOf_iff_prefix.mpr ⟨s, by simp⟩

theorem replaceFirst_of_not_occurs (s p : List Char) (h : occurs p s = false) :
    replaceFirst s p = s := by
  induction s with
  | nil => rfl
  | cons c cs ih =>
    rw [occurs, Bool.or_eq_false_iff] at h
    simp [replaceFirst, h.1, ih h.2]

theorem mapSlash_of_all (l : List Char) (h : l.all (fun c => c != '\\') = true) :
    l.map (fun c => if c = '\\' then '/' else c) = l := by
  induction l with
  | nil => rfl
  | cons c cs ih =>
    simp [List.all_cons] at h
    have ih2 := ih (by simp [List.all_eq_true]; exact h.2)
    simp [ih2, h.1]

theorem backslashToSlash_of_noBackslash (s : String) (h : noBackslash s = true) :
    backslashToSlash s = s := by
  rw [noBackslash] at h
  rw [backslashToSlash, mapSlash_of_all _ h]

/-! Helper lemmas about file processing. -/

theorem processOneFile_contents (env : Env) (f : FFile) (pf : ProcessedFile) (c : Ctx)
    (h : env.opts.readFile = false) :
    (processOneFile env f pf c).1.contents = pf.contents := by
  simp only [processOneFile, h]
  split
  · rfl
  · split
    · rfl
    · split <;> rfl

theorem processFilesFrom_contents (env : Env) (fs : List FFile) (pf : ProcessedFile) (c : Ctx)
    (h : env.opts.readFile = false) :
    (processFilesFrom env pf c fs).1.contents = pf.contents := by
  induction fs generalizing pf c with
  | nil => rfl
  | cons f fs ih =>
    simp only [processFilesFrom]
    rw [ih]
    exact processOneFile_contents env f pf c h

theorem processFilesFrom_append (env : Env) (xs ys : List FFile) (pf : ProcessedFile) (c : Ctx) :
    processFilesFrom env pf c (xs ++ ys)
      = processFilesFrom env (processFilesFrom env pf c xs).1
          (processFilesFrom env pf c xs).2 ys := by
  induction xs generalizing pf c with
  | nil => rfl
  | cons x xs ih =>
    simp only [List.cons_append, processFilesFrom]
    exact ih _ _

theorem processOneFile_accept_pf (env : Env) (f : FFile) (pf pf' : ProcessedFile) (c : Ctx)
    (hext : extRejected env.opts (extOf f.name) = false)
    (hsize : f.size ≤ env.opts.maxFileSizeBytes)
    (hc : pf.contents = pf'.contents ∨ env.opts.readFile = true) :
    (processOneFile env f pf c).1 = (processOneFile env f pf' c).1 := by
  have hgt : ¬ f.size > env.opts.maxFileSizeBytes := by omega
  rcases hc with hc | hc
  · cases hr : env.opts.readFile <;> cases hs : env.opts.saveFile <;>
      simp [processOneFile, hext, hgt, hr, hs, saveFileToDisk, hc]
  · cases hs : env.opts.saveFile <;>
      simp [processOneFile, hext, hgt, hc, hs, saveFileToDisk]

theorem tempPath_inj (cwd u1 u2 n : String) (h : tempPath cwd u1 n = tempPath cwd u2 n) :
    u1 = u2 := by
  have hdata := congrArg String.data h
  simp only [tempPath, pjoin, String.data_append, List.append_assoc] at hdata
  have h1 := List.append_cancel_left hdata
  have h2 := List.append_cancel_left h1
  have h3 := List.append_cancel_left h2
  have h4 := List.append_cancel_left h3
  have hlen : u1.data.length = u2.data.length := by
    have hl := congrArg List.length h4
    simp only [List.length_append] at hl
    omega
  exact String.ext (List.append_inj h4 hlen).1

theorem occurs_of_isPrefixOf (p s : List Char) (h : p.isPrefixOf s = true) :
    occurs p s = true := by
  cases s <;> simp [occurs, h]

theorem noBackslash_append_right (a b : String) (h : noBackslash (a ++ b) = true) :
    noBackslash b = true := by
  simp only [noBackslash, String.data_append, List.all_append, Bool.and_eq_true] at h
  exact h.2

theorem noBackslash_slash_append (s : String) (h : noBackslash s = true) :
    noBackslash ("/" ++ s) = true := by
  simp only [noBackslash, String.data_append, List.all_append, Bool.and_eq_true]
  exact ⟨by decide, h⟩

theorem startsWithSlash_slash_append (s : String) : startsWithSlash ("/" ++ s) = true := by
  have hd : (("/" : String) ++ s).data = '/' :: s.data := by
    simp [String.data_append]
  rw [startsWithSlash, hd]
  simp

theorem ensureLeadingSlash_slash_append (s : String) :
    ensureLeadingSlash ("/" ++ s) = "/" ++ s := by
  rw [ensureLeadingSlash, if_pos (startsWithSlash_slash_append s)]

theorem saveFileToDisk_path (env : Env) (f : FFile) (c : Ctx)
    (hdt : env.opts.useDateTimeSubDir = true) :
    (saveFileToDisk env f c).1 = dateTimePath env (c.uuids.headD "") f.name := by
  cases hcur : env.opts.useCurrentDir <;>
    simp [saveFileToDisk, dateTimePath, dateTimeRel, hdt, hcur, pjoin, joinSegs,
      String.append_assoc]

theorem dateTimePath_data_cur (env : Env) (u n : String)
    (hcur : env.opts.useCurrentDir = true) :
    (dateTimePath env u n).data = env.cwd.data ++ ('/' :: (dateTimeRel env u n).data) := by
  have hs : ("/" : String).data = ['/'] := rfl
  simp [dateTimePath, hcur, String.data_append, hs]

theorem replaceFirstStr_dateTimePath (env : Env) (u n : String)
    (hcur : env.opts.useCurrentDir = true) :
    replaceFirstStr (dateTimePath env u n) env.cwd = "/" ++ dateTimeRel env u n := by
  apply String.ext
  show replaceFirst (dateTimePath env u n).data env.cwd.data
      = (("/" : String) ++ dateTimeRel env u n).data
  rw [dateTimePath_data_cur env u n hcur, replaceFirst_append_self]
  simp [String.data_append]

theorem stripCwd_dateTimePath (env : Env) (u n : String)
    (hcur : env.opts.useCurrentDir = true) :
    stripCwd (dateTimePath env u n) env.cwd = "/" ++ dateTimeRel env u n := by
  rw [stripCwd, if_pos (List.isPrefixOf_iff_prefix.mpr
    ⟨_, (dateTimePath_data_cur env u n hcur).symm⟩)]
  apply String.ext
  show (dateTimePath env u n).data.drop env.cwd.data.length = _
  rw [dateTimePath_data_cur env u n hcur, List.drop_left]
  simp [String.data_append]

theorem stripCwd_of_not_occurs (s pre : String) (h : occurs pre.data s.data = false) :
    stripCwd s pre = s := by
  rw [stripCwd, if_neg]
  intro hp
  simp [occurs_of_isPrefixOf _ _ hp] at h

theorem replaceFirstStr_of_not_occurs (s pre : String) (h : occurs pre.data s.data = false) :
    replaceFirstStr s pre = s := by
  apply String.ext
  show replaceFirst s.data pre.data = s.data
  exact replaceFirst_of_not_occurs _ _ h

/-! The claims. -/

/-- C1: the spec says a file whose extension lies outside a non-empty
`extensions` list gets a validation error, is not stored, and fails the
request. The guard at `mod.ts:221` reads `!extension && ...` instead of a
membership test, so it can only ever fire on an empty extracted extension:
`a.png` under the allow-list `["jpg"]` is accepted, written to disk, and the
request succeeds with no error routed to `onError`. The claim (backed by the
option's own documentation and the spec's scenarios) is right and the code is
wrong. -/
theorem c1_extension_allowlist_never_fires :
    jpgEnv.opts.extensions = ["jpg"] ∧
    extOf aPng.name = "png" ∧
    extRejected jpgEnv.opts (extOf aPng.name) = false ∧
    (processFiles jpgEnv [aPng] ctx2).2.validationErrors = [] ∧
    (processFiles jpgEnv [aPng] ctx2).2.events =
      [Event.read "a.png",
       Event.writePermanent "/cwd/uploads/2026/01/02/03/04/05/u1/a.png"] ∧
    (middleware jpgEnv freshState pngReq ["u1"]).onErrorMsg = none ∧
    (middleware jpgEnv freshState pngReq ["u1"]).nextCalls = 2 := by
  decide

/-- C2: `validationErrors` and `result` are fields of the long-lived
`FileUploader` instance (`mod.ts:114-115`) and are never cleared, so the
second request's outcome depends on the first: after a request that recorded
a validation error, a fully valid second request still fails with an
aggregated error and gets no `ctx.state.uploadedFiles`, while the same
request against a fresh instance succeeds. The spec's freshness requirement
is right and the code is wrong. -/
theorem c2_state_leaks_across_requests :
    (middleware jpgEnv (middleware jpgEnv freshState bigReq ["u1"]).state
        okReq ["u2"]).onErrorMsg ≠ none ∧
    (middleware jpgEnv (middleware jpgEnv freshState bigReq ["u1"]).state
        okReq ["u2"]).uploadedFiles = none ∧
    (middleware jpgEnv freshState okReq ["u2"]).onErrorMsg = none ∧
    (middleware jpgEnv freshState okReq ["u2"]).uploadedFiles ≠ none := by
  decide

/-- C3 counterexample: `noext` is a filename with no '.'; the claim says the
extension check then runs on the empty string and rejects whenever the
extensions list is non-empty, but `split(".").pop()` returns the whole
filename (`"noext"`), the guard does not fire under the non-empty list
`["jpg"]`, and no validation error is recorded. -/
theorem c3_counterexample :
    jpgEnv.opts.extensions = ["jpg"] ∧
    '.' ∉ noExtFile.name.data ∧
    extOf noExtFile.name = "noext" ∧
    (processFiles jpgEnv [noExtFile] ctx2).2.validationErrors = [] := by
  decide

/-- C3 amended: for a file whose filename contains no '.', the extension
check runs on the whole filename, not the empty string; such a file is never
rejected on extension grounds when its name is non-empty, whatever the
extensions list, and when its name is empty it is rejected exactly when the
empty string is not a member of the extensions list (even an empty list
rejects it). -/
theorem c3_amended_dotless_extension (env : Env) (f : FFile) (pf : ProcessedFile)
    (c : Ctx) (h : '.' ∉ f.name.data) :
    extOf f.name = f.name ∧
    (extRejected env.opts (extOf f.name) = true ↔
      (f.name = "" ∧ env.opts.extensions.contains "" = false)) ∧
    (f.name ≠ "" →
      (processOneFile env f pf c).2.validationErrors = c.validationErrors ∨
      (processOneFile env f pf c).2.validationErrors
        = c.validationErrors ++ [sizeMsg env.opts f]) := by
  have hext : extOf f.name = f.name := extOf_of_no_dot f.name h
  refine ⟨hext, ?_, ?_⟩
  · rw [hext, extRejected]
    by_cases he : f.name = "" <;> simp [he]
  · intro hne
    have hrej : extRejected env.opts (extOf f.name) = false := by
      rw [hext, extRejected]
      simp [hne]
    by_cases hsz : f.size > env.opts.maxFileSizeBytes
    · right
      simp [processOneFile, hrej, hsz]
    · left
      cases hr : env.opts.readFile <;> cases hs : env.opts.saveFile <;>
        cases hd : env.opts.useDateTimeSubDir <;>
        simp [processOneFile, hrej, hsz, hr, hs, hd, saveFileToDisk]

/-- C3 amended witness: the amended statement evaluated at `noext` under the
`["jpg"]` configuration. -/
theorem c3_amended_dotless_extension_witness :
    '.' ∉ noExtFile.name.data ∧
    (extOf noExtFile.name = noExtFile.name ∧
      (extRejected jpgEnv.opts (extOf noExtFile.name) = true ↔
        (noExtFile.name = "" ∧ jpgEnv.opts.extensions.contains "" = false)) ∧
      (noExtFile.name ≠ "" →
        (processOneFile jpgEnv noExtFile initProcessedFile ctx2).2.validationErrors
          = ctx2.validationErrors ∨
        (processOneFile jpgEnv noExtFile initProcessedFile ctx2).2.validationErrors
          = ctx2.validationErrors ++ [sizeMsg jpgEnv.opts noExtFile])) :=
  ⟨by decide,
   c3_amended_dotless_extension jpgEnv noExtFile initProcessedFile ctx2 (by decide)⟩

/-- C4 counterexample: for a file failing the (empty-extension) extension
check first, the size check is skipped by the `continue`, so an oversized
`a.` (5000 bytes against a 1000-byte limit) records only the extension
message: no validation error naming the file's size and the limit exists. -/
theorem c4_counterexample :
    noRestrictEnv.opts.maxFileSizeBytes = 1000 ∧
    dotFile.size = 5000 ∧
    (processFiles noRestrictEnv [dotFile] ctx2).2.validationErrors
      = [extMsg noRestrictEnv.opts "" "a."] ∧
    sizeMsg noRestrictEnv.opts dotFile ∉
      (processFiles noRestrictEnv [dotFile] ctx2).2.validationErrors := by
  decide

/-- C4 amended: for every file that passes the extension guard and whose
declared size exceeds `maxFileSizeBytes`, exactly the size validation error
(naming the file, its size and the limit) is appended, no storage write and
no in-memory read event occurs for that file, no unique id is consumed, and
processing continues with the remaining files of the request. -/
theorem c4_amended_oversize_skipped (env : Env) (f : FFile) (pf : ProcessedFile)
    (c : Ctx) (rest : List FFile)
    (hext : extRejected env.opts (extOf f.name) = false)
    (hsize : f.size > env.opts.maxFileSizeBytes) :
    (processOneFile env f pf c).2.validationErrors
      = c.validationErrors ++ [sizeMsg env.opts f] ∧
    (processOneFile env f pf c).2.events = c.events ∧
    (processOneFile env f pf c).2.uuids = c.uuids ∧
    processFilesFrom env pf c (f :: rest)
      = processFilesFrom env (processOneFile env f pf c).1
          (processOneFile env f pf c).2 rest := by
  refine ⟨?_, ?_, ?_, rfl⟩ <;> simp [processOneFile, hext, hsize]

/-- C4 amended witness: the oversized `b.jpg` under the 1000-byte limit. -/
theorem c4_amended_oversize_skipped_witness :
    extRejected jpgEnv.opts (extOf bigJpg.name) = false ∧
    bigJpg.size > jpgEnv.opts.maxFileSizeBytes ∧
    ((processOneFile jpgEnv bigJpg initProcessedFile ctx2).2.validationErrors
        = ctx2.validationErrors ++ [sizeMsg jpgEnv.opts bigJpg] ∧
      (processOneFile jpgEnv bigJpg initProcessedFile ctx2).2.events = ctx2.events ∧
      (processOneFile jpgEnv bigJpg initProcessedFile ctx2).2.uuids = ctx2.uuids ∧
      processFilesFrom jpgEnv initProcessedFile ctx2 [bigJpg]
        = processFilesFrom jpgEnv (processOneFile jpgEnv bigJpg initProcessedFile ctx2).1
            (processOneFile jpgEnv bigJpg initProcessedFile ctx2).2 []) :=
  ⟨by decide, by decide,
   c4_amended_oversize_skipped jpgEnv bigJpg initProcessedFile ctx2 []
     (by decide) (by decide)⟩

/-- C5: whenever the request misses a body, a content-length header, a
content-type header, a boundary parameter, or declares a content-length above
`maxSizeBytes`, the middleware raises one of the precondition errors of
`mod.ts:146-167`: the error is routed to `onError`, no file event (read or
write) happens, no result is attached to `ctx.state`, and the instance state
(error list and result record) is untouched — so no file was validated. -/
theorem c5_precondition_failure_fatal (env : Env) (st : UploaderState) (req : Request)
    (uuids : List String)
    (h : req.hasBody = false ∨ req.contentLength = none ∨ req.contentType = none ∨
      (∃ ct, req.contentType = some ct ∧
        (boundaryOf ct = none ∨ boundaryOf ct = some "")) ∨
      (∃ len, req.contentLength = some len ∧ len > env.opts.maxSizeBytes)) :
    (preconditionError env.opts req).isSome = true ∧
    (middleware env st req uuids).onErrorMsg = preconditionError env.opts req ∧
    (middleware env st req uuids).events = [] ∧
    (middleware env st req uuids).uploadedFiles = none ∧
    (middleware env st req uuids).state = st := by
  have hs : (preconditionError env.opts req).isSome = true := by
    rcases h with h | h | h | ⟨ct, hct, hb⟩ | ⟨len, hlen, hgt⟩
    · simp [preconditionError, h]
    · cases hB : req.hasBody <;> simp [preconditionError, h, hB]
    · cases hB : req.hasBody
      · simp [preconditionError, hB]
      · cases hcl : req.contentLength <;> simp [preconditionError, h, hB, hcl]
    · cases hB : req.hasBody
      · simp [preconditionError, hB]
      · cases hcl : req.contentLength with
        | none => simp [preconditionError, hB, hcl]
        | some len =>
          by_cases hce : ct = ""
          · simp [preconditionError, hB, hcl, hct, hce]
          · by_cases hgt : len > env.opts.maxSizeBytes
            · simp [preconditionError, hB, hcl, hct, hce, hgt]
            · rcases hb with hb | hb <;>
                simp [preconditionError, hB, hcl, hct, hce, hgt, hb]
    · cases hB : req.hasBody
      · simp [preconditionError, hB]
      · cases hctv : req.contentType with
        | none => simp [preconditionError, hB, hlen, hctv]
        | some ct =>
          by_cases hce : ct = ""
          · simp [preconditionError, hB, hlen, hctv, hce]
          · simp [preconditionError, hB, hlen, hctv, hce, hgt]
  obtain ⟨e, he⟩ := Option.isSome_iff_exists.mp hs
  refine ⟨hs, ?_, ?_, ?_, ?_⟩ <;> simp [middleware, he]

/-- C5 witness: the request with no content-length header fails fatally with
no file event and untouched state. -/
theorem c5_precondition_failure_fatal_witness :
    (noLenReq.hasBody = false ∨ noLenReq.contentLength = none ∨
      noLenReq.contentType = none ∨
      (∃ ct, noLenReq.contentType = some ct ∧
        (boundaryOf ct = none ∨ boundaryOf ct = some "")) ∨
      (∃ len, noLenReq.contentLength = some len ∧ len > jpgEnv.opts.maxSizeBytes)) ∧
    ((preconditionError jpgEnv.opts noLenReq).isSome = true ∧
      (middleware jpgEnv freshState noLenReq []).onErrorMsg
        = preconditionError jpgEnv.opts noLenReq ∧
      (middleware jpgEnv freshState noLenReq []).events = [] ∧
      (middleware jpgEnv freshState noLenReq []).uploadedFiles = none ∧
      (middleware jpgEnv freshState noLenReq []).state = freshState) :=
  ⟨Or.inr (Or.inl rfl),
   c5_precondition_failure_fatal jpgEnv freshState noLenReq [] (Or.inr (Or.inl rfl))⟩

/-- C6 counterexample: field with files `[a.jpg (accepted), b.jpg
(oversized, rejected)]`: the single result entry carries the last file's
metadata (`b.jpg`, 5000) but the stored path of the earlier `a.jpg`, while
processing `[b.jpg]` alone leaves `uri` empty — so the data of the earlier
file is not discarded and the entry does not reflect the last file. -/
theorem c6_counterexample :
    (processFiles jpgEnv [aJpg, bigJpg] ctx2).1.filename = "b.jpg" ∧
    (processFiles jpgEnv [aJpg, bigJpg] ctx2).1.size = 5000 ∧
    (processFiles jpgEnv [aJpg, bigJpg] ctx2).1.uri
      = "/cwd/uploads/2026/01/02/03/04/05/u1/a.jpg" ∧
    (processFiles jpgEnv [bigJpg] ctx2).1.uri = "" := by
  decide

/-- C6 amended: a multi-file field still collapses to a single
`ProcessedFile` entry, and whenever the field's last file passes validation
the entry reflects that last file entirely (all earlier files' data is
discarded): it equals the processing of the last file alone from a fresh
`processedFile`, in the context left by the earlier files. When the last
file is rejected, its metadata overwrite the entry while `contents`, `uri`
and `url` keep the last accepted file's values. -/
theorem c6_amended_last_accepted_wins (env : Env) (fs : List FFile) (f : FFile)
    (c : Ctx)
    (hext : extRejected env.opts (extOf f.name) = false)
    (hsize : f.size ≤ env.opts.maxFileSizeBytes) :
    (processFiles env (fs ++ [f]) c).1
      = (processOneFile env f initProcessedFile
          (processFilesFrom env initProcessedFile c fs).2).1 := by
  rw [processFiles, processFilesFrom_append]
  simp only [processFilesFrom]
  apply processOneFile_accept_pf env f _ initProcessedFile _ hext hsize
  cases hr : env.opts.readFile
  · exact Or.inl (processFilesFrom_contents env fs initProcessedFile c hr)
  · exact Or.inr rfl

/-- C6 amended witness: after the oversized `b.jpg`, the accepted `a.jpg`
fully overwrites the entry. -/
theorem c6_amended_last_accepted_wins_witness :
    extRejected jpgEnv.opts (extOf aJpg.name) = false ∧
    aJpg.size ≤ jpgEnv.opts.maxFileSizeBytes ∧
    (processFiles jpgEnv ([bigJpg] ++ [aJpg]) ctx2).1
      = (processOneFile jpgEnv aJpg initProcessedFile
          (processFilesFrom jpgEnv initProcessedFile ctx2 [bigJpg]).2).1 :=
  ⟨by decide, by decide,
   c6_amended_last_accepted_wins jpgEnv [bigJpg] aJpg ctx2 (by decide) (by decide)⟩

/-- C7: in temporary-storage mode (`saveFile=false`) every accepted file gets
an empty `url` and a `uri` of the form
`{cwd}/temp_uploads/{unique-id}_{originalFilename}`, and two distinct unique
ids give distinct `uri` values even for two files sharing the same original
name. -/
theorem c7_temp_storage_uri (env : Env) (f : FFile) (pf : ProcessedFile) (c : Ctx)
    (hsave : env.opts.saveFile = false)
    (hext : extRejected env.opts (extOf f.name) = false)
    (hsize : f.size ≤ env.opts.maxFileSizeBytes) :
    (processOneFile env f pf c).1.url = "" ∧
    (processOneFile env f pf c).1.uri = tempPath env.cwd (c.uuids.headD "") f.name ∧
    (∀ u1 u2 n : String, u1 ≠ u2 → tempPath env.cwd u1 n ≠ tempPath env.cwd u2 n) := by
  have hgt : ¬ f.size > env.opts.maxFileSizeBytes := by omega
  refine ⟨?_, ?_, ?_⟩
  · cases hr : env.opts.readFile <;> simp [processOneFile, hext, hgt, hsave, hr]
  · cases hr : env.opts.readFile <;> simp [processOneFile, hext, hgt, hsave, hr]
  · intro u1 u2 n hne heq
    exact hne (tempPath_inj env.cwd u1 u2 n heq)

/-- C7 witness: the accepted `a.jpg` in temporary mode. -/
theorem c7_temp_storage_uri_witness :
    tmpModeEnv.opts.saveFile = false ∧
    extRejected tmpModeEnv.opts (extOf aJpg.name) = false ∧
    aJpg.size ≤ tmpModeEnv.opts.maxFileSizeBytes ∧
    ((processOneFile tmpModeEnv aJpg initProcessedFile ctx2).1.url = "" ∧
      (processOneFile tmpModeEnv aJpg initProcessedFile ctx2).1.uri
        = tempPath tmpModeEnv.cwd (ctx2.uuids.headD "") aJpg.name ∧
      (∀ u1 u2 n : String, u1 ≠ u2 →
        tempPath tmpModeEnv.cwd u1 n ≠ tempPath tmpModeEnv.cwd u2 n)) :=
  ⟨by decide, by decide, by decide,
   c7_temp_storage_uri tmpModeEnv aJpg initProcessedFile ctx2
     (by decide) (by decide) (by decide)⟩

/-- C8: with `saveFile=true` and `useDateTimeSubDir=true`, every accepted
file's `uri` is
`{basePath}/{YYYY}/{MM}/{DD}/{HH}/{mm}/{ss}/{uuid}/{originalFilename}`
(under the cwd when `useCurrentDir` is set), with month through second
zero-padded to two digits (`pad2`), the original filename as the final
segment, and `url` is the URL-encoded form of that path with the cwd prefix
removed and a leading '/' guaranteed. The backslash hypothesis reflects
that `.replace(/\\/g, "/")` only matters for Windows separators; the cwd
hypothesis rules out the degenerate case of the cwd string occurring in the
middle of the path, since the code removes the first occurrence anywhere. -/
theorem c8_datetime_path_and_url (env : Env) (f : FFile) (pf : ProcessedFile) (c : Ctx)
    (hsave : env.opts.saveFile = true)
    (hdt : env.opts.useDateTimeSubDir = true)
    (hext : extRejected env.opts (extOf f.name) = false)
    (hsize : f.size ≤ env.opts.maxFileSizeBytes)
    (hnb : noBackslash (dateTimePath env (c.uuids.headD "") f.name) = true)
    (hcwd : env.opts.useCurrentDir = true ∨
      occurs env.cwd.data (dateTimePath env (c.uuids.headD "") f.name).data = false) :
    (processOneFile env f pf c).1.uri = dateTimePath env (c.uuids.headD "") f.name ∧
    (processOneFile env f pf c).1.url =
      env.encodeURI (ensureLeadingSlash
        (stripCwd (dateTimePath env (c.uuids.headD "") f.name) env.cwd)) := by
  have hgt : ¬ f.size > env.opts.maxFileSizeBytes := by omega
  have hsf : ∀ c' : Ctx,
      (saveFileToDisk env f c').1 = dateTimePath env (c'.uuids.headD "") f.name :=
    fun c' => saveFileToDisk_path env f c' hdt
  refine ⟨?_, ?_⟩
  · cases hr : env.opts.readFile <;> simp [processOneFile, hext, hgt, hsave, hr, hsf]
  · rcases hcwd with hcur | hocc
    · have hrel : dateTimePath env (c.uuids.headD "") f.name
          = env.cwd ++ "/" ++ dateTimeRel env (c.uuids.headD "") f.name := by
        simp [dateTimePath, hcur]
      have hnbrel : noBackslash ("/" ++ dateTimeRel env (c.uuids.headD "") f.name) = true := by
        rw [hrel] at hnb
        exact noBackslash_slash_append _ (noBackslash_append_right (env.cwd ++ "/") _ hnb)
      have hnbrel2 : noBackslash ("/" ++ dateTimeRel env (c.uuids.head?.getD "") f.name)
          = true := by
        simpa using hnbrel
      cases hr : env.opts.readFile <;>
        simp [processOneFile, hext, hgt, hsave, hr, hsf,
          replaceFirstStr_dateTimePath env _ _ hcur,
          backslashToSlash_of_noBackslash _ hnbrel2,
          startsWithSlash_slash_append,
          stripCwd_dateTimePath env _ _ hcur,
          ensureLeadingSlash_slash_append]
    · have hnb2 : noBackslash (dateTimePath env (c.uuids.head?.getD "") f.name) = true := by
        simpa using hnb
      have hocc2 : occurs env.cwd.data
          (dateTimePath env (c.uuids.head?.getD "") f.name).data = false := by
        simpa using hocc
      cases hr : env.opts.readFile <;>
        simp [processOneFile, hext, hgt, hsave, hr, hsf,
          replaceFirstStr_of_not_occurs _ _ hocc2,
          backslashToSlash_of_noBackslash _ hnb2,
          stripCwd_of_not_occurs _ _ hocc2,
          ensureLeadingSlash]

/-- C8 witness: the accepted `a.jpg` in the default configuration. -/
theorem c8_datetime_path_and_url_witness :
    jpgEnv.opts.saveFile = true ∧
    jpgEnv.opts.useDateTimeSubDir = true ∧
    extRejected jpgEnv.opts (extOf aJpg.name) = false ∧
    aJpg.size ≤ jpgEnv.opts.maxFileSizeBytes ∧
    noBackslash (dateTimePath jpgEnv (ctx2.uuids.headD "") aJpg.name) = true ∧
    jpgEnv.opts.useCurrentDir = true ∧
    ((processOneFile jpgEnv aJpg initProcessedFile ctx2).1.uri
        = dateTimePath jpgEnv (ctx2.uuids.headD "") aJpg.name ∧
      (processOneFile jpgEnv aJpg initProcessedFile ctx2).1.url
        = jpgEnv.encodeURI (ensureLeadingSlash
            (stripCwd (dateTimePath jpgEnv (ctx2.uuids.headD "") aJpg.name) jpgEnv.cwd))) :=
  ⟨by decide, by decide, by decide, by decide, by decide, by decide,
   c8_datetime_path_and_url jpgEnv aJpg initProcessedFile ctx2
     (by decide) (by decide) (by decide) (by decide) (by decide) (Or.inl (by decide))⟩

/-- C9: when the preconditions pass and the validation-error list ends up
non-empty, the middleware throws (and routes to `onError`) the single
aggregated `Unprocessable Entity` error joining all collected messages with
a blank, and the downstream `next` is still awaited afterwards (the
`await next()` after the `try`/`catch` at `mod.ts:195`). -/
theorem c9_aggregated_error_still_next (env : Env) (st : UploaderState) (req : Request)
    (uuids : List String)
    (hpre : preconditionError env.opts req = none)
    (herr : (runForm env st req.formData uuids).2.validationErrors ≠ []) :
    (middleware env st req uuids).onErrorMsg =
      some ("Unprocessable Entity: " ++
        String.intercalate " " (runForm env st req.formData uuids).2.validationErrors) ∧
    (middleware env st req uuids).nextCalls = 1 := by
  constructor <;> simp [middleware, hpre, List.isEmpty_iff, herr]

/-- C9 witness: uploading only the oversized `b.jpg` yields the aggregated
size error routed to `onError`, with `next` still called. -/
theorem c9_aggregated_error_still_next_witness :
    preconditionError jpgEnv.opts bigReq = none ∧
    (runForm jpgEnv freshState bigReq.formData ["u1"]).2.validationErrors ≠ [] ∧
    ((middleware jpgEnv freshState bigReq ["u1"]).onErrorMsg =
      some ("Unprocessable Entity: " ++
        String.intercalate " "
          (runForm jpgEnv freshState bigReq.formData ["u1"]).2.validationErrors) ∧
      (middleware jpgEnv freshState bigReq ["u1"]).nextCalls = 1) :=
  ⟨by decide, by decide,
   c9_aggregated_error_still_next jpgEnv freshState bigReq ["u1"]
     (by decide) (by decide)⟩

/-- C10: on a request passing every precondition and ending with an empty
validation-error list, the middleware attaches the result record to
`ctx.state.uploadedFiles` and awaits `next` exactly twice: once inside the
`try` after the attachment (`mod.ts:190`) and once unconditionally after the
`try`/`catch` (`mod.ts:195`). -/
theorem c10_success_next_twice (env : Env) (st : UploaderState) (req : Request)
    (uuids : List String)
    (hpre : preconditionError env.opts req = none)
    (hok : (runForm env st req.formData uuids).2.validationErrors = []) :
    (middleware env st req uuids).nextCalls = 2 ∧
    (middleware env st req uuids).uploadedFiles
      = some (runForm env st req.formData uuids).1 ∧
    (middleware env st req uuids).onErrorMsg = none := by
  refine ⟨?_, ?_, ?_⟩ <;> simp [middleware, hpre, hok]

/-- C10 witness: the fully valid `a.jpg` request. -/
theorem c10_success_next_twice_witness :
    preconditionError jpgEnv.opts okReq = none ∧
    (runForm jpgEnv freshState okReq.formData ["u1"]).2.validationErrors = [] ∧
    ((middleware jpgEnv freshState okReq ["u1"]).nextCalls = 2 ∧
      (middleware jpgEnv freshState okReq ["u1"]).uploadedFiles
        = some (runForm jpgEnv freshState okReq.formData ["u1"]).1 ∧
      (middleware jpgEnv freshState okReq ["u1"]).onErrorMsg = none) :=
  ⟨by decide, by decide,
   c10_success_next_twice jpgEnv freshState okReq ["u1"] (by decide) (by decide)⟩

end OakUpload
